import Mathlib

/-!
Verification development for the led-meter LEDP server (C sources).

The embedding below translates, function by function, the C code of:
  * the shared LEDP dispatch loop (`start_ledp_server` in server.h),
  * the combined-register (wiimote) backend (`handle_message` in wiimote.c),
  * the sysfs backend (`handle_message`, `process_led`, `main` in
    servers/sysfs-leds.c),
  * the line-protocol GPIO backend for AirOS (`handle_message` in airos.c).

Machine integers are modelled as `Nat` with explicit 32-bit reductions where
the C code truncates; byte buffers are `List Nat` (each element a byte value).
-/

/-- Wire packet decoded from a datagram (`struct ledp_packet` in server.h). -/
structure ledp_packet where
  protocol_version : Nat
  mask : Nat
  values : Nat
  deriving DecidableEq, Repr

/-- Little-endian 32-bit load of four consecutive bytes, modelling the
unaligned load of the C expression of the form star-cast `(uint32_t*)(received+k)`
on the little-endian hosts this code runs on (byte at the lowest address is
least significant). -/
def readLE32 (a b c d : Nat) : Nat :=
  a + 256 * b + 65536 * c + 16777216 * d

/-- The C library call `htonl` on a little-endian host: reverses the four bytes
of a 32-bit value. -/
def htonl32 (x : Nat) : Nat :=
  (x % 256) * 16777216 + (x / 256 % 256) * 65536 + (x / 65536 % 256) * 256 + (x / 16777216 % 256)

/-- One iteration of the receive loop of `start_ledp_server` in server.h,
as a function of the arriving datagram's bytes, returning the packet handed to
the backend handler, or `none` when the iteration `continue`s.

The C code is
  `if (recv(sock, &received, 9, 0) != 9) continue;`
and on a datagram socket `recv` with a 9-byte buffer returns
`min (datagram length) 9`: a datagram longer than 9 bytes is truncated to its
first 9 bytes, the excess is discarded, and `recv` returns 9.
The version byte is `received[0]`; the mask and value words are unaligned
32-bit loads at offsets 1 and 5 passed through `htonl`. -/
def ledp_step (datagram : List Nat) : Option ledp_packet :=
  if min datagram.length 9 ≠ 9 then none
  else if (datagram.take 9).getD 0 0 ≠ 1 then none
  else some
    { protocol_version := (datagram.take 9).getD 0 0
      mask := htonl32 (readLE32 ((datagram.take 9).getD 1 0) ((datagram.take 9).getD 2 0)
        ((datagram.take 9).getD 3 0) ((datagram.take 9).getD 4 0))
      values := htonl32 (readLE32 ((datagram.take 9).getD 5 0) ((datagram.take 9).getD 6 0)
        ((datagram.take 9).getD 7 0) ((datagram.take 9).getD 8 0)) }

/-- Effect of one received datagram on an arbitrary backend state: the handler
runs exactly when `ledp_step` accepts the datagram (the dispatch of
`start_ledp_server`). -/
def dispatch {σ : Type} (apply : σ → ledp_packet → σ) (st : σ) (datagram : List Nat) : σ :=
  match ledp_step datagram with
  | none => st
  | some p => apply st p

/-! ## Combined-register backend (wiimote.c) -/

/-- Shadow-register update performed by `handle_message` in wiimote.c:
`data->leds &= ~packet->mask; data->leds |= packet->values;`.
`leds` is a 32-bit register, so `~packet->mask` is the complement within
32 bits, i.e. `4294967295 ^^^ mask`.  Note the second line ORs in ALL bits of
`values`, not only the masked ones. -/
def wiimote_update (p : ledp_packet) (leds : Nat) : Nat :=
  (leds &&& (4294967295 ^^^ p.mask)) ||| p.values

/-- The four LED flag constants `CWIID_LED1_ON .. CWIID_LED4_ON` of the
external cwiid library header: bits 0..3. -/
def led_flags : List Nat := [1, 2, 4, 8]

/-- Flags value computed by `handle_message` in wiimote.c from the shadow
register: `for (i = 0; i < 4; i++) if (data->leds & (1 << i)) flags |= led_flags[i];`. -/
def wiimote_flags (leds : Nat) : Nat :=
  (List.range 4).foldl (fun fl i => if leds.testBit i then fl ||| led_flags.getD i 0 else fl) 0

/-- Reference run of the combined-register backend over a command sequence:
for each packet, the shadow register after the command and the flags value of
the single `cwiid_set_led` call issued for it. -/
def wiimote_pure (leds : Nat) : List ledp_packet → List (Nat × Nat)
  | [] => []
  | p :: rest =>
    let l := wiimote_update p leds
    (l, wiimote_flags l) :: wiimote_pure l rest

/-- Run of the combined-register backend in which each command comes with the
success/failure outcome of its `cwiid_set_led` write.  Per wiimote.c a failed
write only prints an error (`fprintf`) and the loop continues, so each step
records (shadow register, flags written, whether an error was reported). -/
def wiimote_run (leds : Nat) : List (ledp_packet × Bool) → List (Nat × Nat × Bool)
  | [] => []
  | (p, ok) :: rest =>
    let l := wiimote_update p leds
    (l, wiimote_flags l, !ok) :: wiimote_run l rest

/-- Modelled from the spec: the shadow-register update required by the backend
capability contract of section 4.3 — for each index, if the mask bit is set the
entry becomes the corresponding bit of the value word, otherwise the entry is
unchanged.  Used only to compare the source's update against the contract. -/
def spec_masked_update (p : ledp_packet) (leds : Nat) : Nat :=
  (leds &&& (4294967295 ^^^ p.mask)) ||| (p.values &&& p.mask)

/-! ## Sysfs backend (servers/sysfs-leds.c) -/

/-- One served LED of the sysfs backend (`struct led_entry`). -/
structure led_entry where
  brightness_fd : Nat
  max_brightness : Int
  deriving DecidableEq, Repr

/-- The value computed by `handle_message` of sysfs-leds.c for one addressed
LED: `int value = (packet->values & (1 << led)) ? entry->max_brightness : 0;`. -/
def sysfs_write_value (entries : List led_entry) (p : ledp_packet) (led : Nat) : Int :=
  if p.values.testBit led then (entries.getD led ⟨0, 0⟩).max_brightness else 0

/-- `handle_message` of sysfs-leds.c, as a transformer of the device state.
The device state maps each served LED index to the value last written to its
brightness file.  The C loop runs `led` from 0 below `entries_count`, skips
indices whose mask bit is clear, and writes `sysfs_write_value` as decimal
text to that LED's brightness file. -/
def sysfs_apply (entries : List led_entry) (p : ledp_packet) (dev : Nat → Int) : Nat → Int :=
  (List.range entries.length).foldl
    (fun d led =>
      if p.mask.testBit led then
        fun j => if j = led then sysfs_write_value entries p led else d j
      else d)
    dev

/-- A candidate directory entry seen by `main` of sysfs-leds.c while scanning
`/sys/class/leds`: whether its name is `.` or `..`, the result of reading its
`max_brightness` file (`none` when `fopen` or `fscanf` fails), and the result
of opening its `brightness` file for writing (`none` when `open` fails). -/
structure led_candidate where
  name_is_dot : Bool
  max_brightness_read : Option Int
  brightness_open : Option Nat
  deriving DecidableEq, Repr

/-- `process_led` of sysfs-leds.c.  State is (collected entries, entries_found);
the returned `Bool` is true when the function returns nonzero status.
`entries_found` is incremented first; then, if 32 entries were already
collected, status 1 is returned; otherwise the LED's files are read/opened
(failures return status 1; the C code leaves a partially-initialized slot in
that case, which is never observed because the caller exits). -/
def process_led (entries : List led_entry) (found : Nat) (c : led_candidate) :
    (List led_entry × Nat) × Bool :=
  let found := found + 1
  if 32 ≤ entries.length then ((entries, found), true)
  else
    match c.max_brightness_read, c.brightness_open with
    | some mb, some fd => ((entries ++ [⟨fd, mb⟩], found), false)
    | _, _ => ((entries, found), true)

/-- The scanning loop of `main` of sysfs-leds.c over the (alphabetically
sorted) directory entries: `.` and `..` are skipped, every other candidate is
passed to `process_led`, and a nonzero status makes `main` return 1 (modelled
as `Except.error`). -/
def sysfs_scan : List led_entry → Nat → List led_candidate → Except Unit (List led_entry × Nat)
  | entries, found, [] => Except.ok (entries, found)
  | entries, found, c :: rest =>
    if c.name_is_dot then sysfs_scan entries found rest
    else
      let r := process_led entries found c
      if r.2 then Except.error () else sysfs_scan r.1.1 r.1.2 rest

/-- Full setup of the sysfs backend (`main` of sysfs-leds.c up to the point
where serving starts): on success returns the served entries together with
whether the excess-LEDs warning was printed
(`data.entries_found > data.entries_count`). -/
def sysfs_setup (cands : List led_candidate) : Except Unit (List led_entry × Bool) :=
  (sysfs_scan [] 0 cands).map (fun r => (r.1, decide (r.1.length < r.2)))

/-! ## Line-protocol GPIO backend (airos.c) -/

/-- Fuelled most-significant-digit-first decimal rendering (byte values of the
ASCII digits), the output of `sprintf` conversions `%u`/`%d` on the
non-negative values this code prints. -/
def decDigits : Nat → Nat → List Nat → List Nat
  | 0, _, acc => acc
  | fuel + 1, n, acc =>
    if n < 10 then (48 + n) :: acc
    else decDigits fuel (n / 10) ((48 + n % 10) :: acc)

/-- Decimal rendering of a natural number as ASCII bytes. -/
def udec (n : Nat) : List Nat := decDigits (n + 1) n []

/-- The bytes produced by `sprintf(.., "%u %d %d\n", pin, a, b)` in
airos.c's `handle_message` (32 is the space byte, 10 the newline byte). -/
def gpio_line (pin a b : Nat) : List Nat :=
  udec pin ++ [32] ++ udec a ++ [32] ++ udec b ++ [10]

/-- The value computed by `handle_message` of airos.c for one addressed index:
`int value = !!(packet->values & (1 << i));`. -/
def desired_bit (p : ledp_packet) (i : Nat) : Nat :=
  if p.values.testBit i then 1 else 0

/-- `handle_message` of airos.c: the command buffer built by the loop over the
32 possible indices together with `commands_length`.  Indices whose mask bit
is clear are skipped (`continue`); for the others one line
`"%u %d %d\n" i value value` is appended, with `commands_length` advanced by
`sprintf`'s return value (the line's byte count). -/
def airos_handle_message (p : ledp_packet) : List Nat × Nat :=
  (List.range 32).foldl
    (fun acc i =>
      if p.mask.testBit i then
        (acc.1 ++ gpio_line i (desired_bit p i) (desired_bit p i),
         acc.2 + (gpio_line i (desired_bit p i) (desired_bit p i)).length)
      else acc)
    ([], 0)

/-- The write calls issued by `handle_message` of airos.c: exactly one
`write(data->control_fd, commands, commands_length)`, given as (bytes written,
length argument). -/
def airos_writes (p : ledp_packet) : List (List Nat × Nat) :=
  [airos_handle_message p]

/-- The addressed indices of a packet, in increasing order: those `i` in 0..31
whose mask bit is set. -/
def addressed (p : ledp_packet) : List Nat :=
  (List.range 32).filter (fun i => p.mask.testBit i)

/-- Semantics of the `/proc/gpio/system_led` control file that airos.c writes
to, as documented in that file's header comment: each line `pin v v` sets the
state of that GPIO pin to `v`.  The device consumes lines in order. -/
def gpio_consume (dev : Nat → Bool) : List (Nat × Bool) → Nat → Bool
  | [], j => dev j
  | (pin, v) :: rest, j => gpio_consume (fun k => if k = pin then v else dev k) rest j

/-- Device state after the airos backend applies one packet: the single write
carries, for each addressed index in increasing order, one line setting that
pin to the desired bit. -/
def airos_dev (p : ledp_packet) (dev : Nat → Bool) : Nat → Bool :=
  gpio_consume dev ((addressed p).map (fun i => (i, p.values.testBit i)))


/-! ## Helper lemmas -/

theorem htonl32_readLE32 (a b c d : Nat) (ha : a < 256) (hb : b < 256)
    (hc : c < 256) (hd : d < 256) :
    htonl32 (readLE32 a b c d) = ((a * 256 + b) * 256 + c) * 256 + d := by
  unfold htonl32 readLE32
  have h1 : (a + 256 * b + 65536 * c + 16777216 * d) % 256 = a := by omega
  have h2 : (a + 256 * b + 65536 * c + 16777216 * d) / 256 % 256 = b := by omega
  have h3 : (a + 256 * b + 65536 * c + 16777216 * d) / 65536 % 256 = c := by omega
  have h4 : (a + 256 * b + 65536 * c + 16777216 * d) / 16777216 % 256 = d := by omega
  rw [h1, h2, h3, h4]
  ring

theorem wiimote_update_testBit (p : ledp_packet) (leds : Nat) (i : Nat) (hi : i < 32) :
    (wiimote_update p leds).testBit i =
      (leds.testBit i && !p.mask.testBit i || p.values.testBit i) := by
  have h32 : (4294967295 : Nat) = 2 ^ 32 - 1 := by norm_num
  unfold wiimote_update
  rw [Nat.testBit_or, Nat.testBit_and, Nat.testBit_xor, h32,
    Nat.testBit_two_pow_sub_one, decide_eq_true hi]
  cases p.mask.testBit i <;> cases leds.testBit i <;> rfl

theorem gpio_consume_map (f : Nat → Bool) (l : List Nat) (dev : Nat → Bool) (i : Nat) :
    gpio_consume dev (l.map (fun j => (j, f j))) i = if i ∈ l then f i else dev i := by
  induction l generalizing dev with
  | nil => simp [gpio_consume]
  | cons a t ih =>
    simp only [List.map_cons, gpio_consume, List.mem_cons]
    rw [ih]
    by_cases hat : i ∈ t
    · simp [hat]
    · by_cases hia : i = a
      · subst hia
        simp [hat]
      · simp [hat, hia]

theorem airos_dev_eq (p : ledp_packet) (dev : Nat → Bool) (i : Nat) :
    airos_dev p dev i =
      if i < 32 ∧ p.mask.testBit i = true then p.values.testBit i else dev i := by
  unfold airos_dev addressed
  rw [gpio_consume_map (fun j => p.values.testBit j)]
  simp [List.mem_filter, List.mem_range]

theorem foldl_update_eq (cond : Nat → Bool) (val : Nat → Int) (l : List Nat)
    (dev : Nat → Int) (i : Nat) :
    (l.foldl (fun d led => if cond led then (fun j => if j = led then val led else d j) else d) dev) i
      = if i ∈ l ∧ cond i = true then val i else dev i := by
  induction l generalizing dev with
  | nil => simp
  | cons a t ih =>
    simp only [List.foldl_cons, List.mem_cons]
    rw [ih]
    by_cases hci : cond i <;> by_cases hca : cond a <;> by_cases hia : i = a <;>
      by_cases hat : i ∈ t <;> simp_all

theorem sysfs_apply_eq (entries : List led_entry) (p : ledp_packet) (dev : Nat → Int) (i : Nat) :
    sysfs_apply entries p dev i =
      if i < entries.length ∧ p.mask.testBit i = true then sysfs_write_value entries p i
      else dev i := by
  unfold sysfs_apply
  rw [foldl_update_eq (fun led => p.mask.testBit led) (fun led => sysfs_write_value entries p led)]
  simp [List.mem_range]

theorem airos_fold_append (p : ledp_packet) (l : List Nat) (acc : List Nat × Nat) :
    l.foldl
        (fun acc i =>
          if p.mask.testBit i then
            (acc.1 ++ gpio_line i (desired_bit p i) (desired_bit p i),
             acc.2 + (gpio_line i (desired_bit p i) (desired_bit p i)).length)
          else acc)
        acc
      = (acc.1 ++ ((l.filter (fun i => p.mask.testBit i)).map
            (fun i => gpio_line i (desired_bit p i) (desired_bit p i))).flatten,
         acc.2 + (((l.filter (fun i => p.mask.testBit i)).map
            (fun i => gpio_line i (desired_bit p i) (desired_bit p i))).flatten).length) := by
  induction l generalizing acc with
  | nil => simp
  | cons a t ih =>
    simp only [List.foldl_cons, List.filter_cons]
    by_cases h : p.mask.testBit a
    · rw [if_pos h, ih]
      simp [h, List.append_assoc, Nat.add_assoc]
    · rw [if_neg h, ih]
      simp [h]

theorem airos_buffer_eq (p : ledp_packet) :
    airos_handle_message p
      = (((addressed p).map (fun i => gpio_line i (desired_bit p i) (desired_bit p i))).flatten,
         (((addressed p).map (fun i => gpio_line i (desired_bit p i) (desired_bit p i))).flatten).length) := by
  unfold airos_handle_message addressed
  rw [airos_fold_append]
  simp

theorem gpio_line_length (i a b : Nat) :
    (gpio_line i a b).length = (udec i).length + (udec a).length + (udec b).length + 3 := by
  simp [gpio_line]
  omega

theorem udec_desired_length (p : ledp_packet) (i : Nat) :
    (udec (desired_bit p i)).length = 1 := by
  unfold desired_bit
  by_cases h : p.values.testBit i <;> simp [h] <;> rfl

theorem sum_map_filter_le (l : List Nat) (q : Nat → Bool) (f : Nat → Nat) :
    ((l.filter q).map f).sum ≤ (l.map f).sum := by
  induction l with
  | nil => simp
  | cons a t ih =>
    by_cases h : q a
    · simp only [List.filter_cons, h, if_pos, List.map_cons, List.sum_cons]
      exact Nat.add_le_add_left ih _
    · simp only [List.filter_cons, h, Bool.false_eq_true, if_neg, List.map_cons, List.sum_cons,
        not_false_eq_true]
      exact Nat.le_trans ih (Nat.le_add_left _ _)

theorem airos_total_le (p : ledp_packet) :
    (((addressed p).map (fun i => gpio_line i (desired_bit p i) (desired_bit p i))).flatten).length
      ≤ 214 := by
  rw [List.length_flatten, List.map_map]
  have hmap : (addressed p).map (List.length ∘ fun i => gpio_line i (desired_bit p i) (desired_bit p i))
      = (addressed p).map (fun i => (udec i).length + 5) := by
    refine List.map_congr_left (fun a _ => ?_)
    simp only [Function.comp_apply, gpio_line_length, udec_desired_length]
  rw [hmap]
  calc ((addressed p).map (fun i => (udec i).length + 5)).sum
      ≤ ((List.range 32).map (fun i => (udec i).length + 5)).sum :=
        sum_map_filter_le (List.range 32) (fun i => p.mask.testBit i) _
    _ = 214 := by decide

theorem wiimote_flags_congr (l1 l2 : Nat) (h : ∀ j, j < 4 → l1.testBit j = l2.testBit j) :
    wiimote_flags l1 = wiimote_flags l2 := by
  unfold wiimote_flags
  have r4 : List.range 4 = [0, 1, 2, 3] := rfl
  rw [r4]
  simp only [List.foldl_cons, List.foldl_nil]
  rw [h 0 (by omega), h 1 (by omega), h 2 (by omega), h 3 (by omega)]

theorem wiimote_update_low_congr (p q : ledp_packet) (l1 l2 : Nat)
    (hp : ∀ j, j < 4 →
      p.mask.testBit j = q.mask.testBit j ∧ p.values.testBit j = q.values.testBit j)
    (hl : ∀ j, j < 4 → l1.testBit j = l2.testBit j) :
    ∀ j, j < 4 → (wiimote_update p l1).testBit j = (wiimote_update q l2).testBit j := by
  intro j hj
  rw [wiimote_update_testBit p l1 j (by omega), wiimote_update_testBit q l2 j (by omega),
    (hp j hj).1, (hp j hj).2, hl j hj]

theorem wiimote_pure_snd_congr {cs1 cs2 : List ledp_packet}
    (h : List.Forall₂
      (fun p q => ∀ j, j < 4 →
        p.mask.testBit j = q.mask.testBit j ∧ p.values.testBit j = q.values.testBit j)
      cs1 cs2) :
    ∀ l1 l2, (∀ j, j < 4 → l1.testBit j = l2.testBit j) →
      (wiimote_pure l1 cs1).map Prod.snd = (wiimote_pure l2 cs2).map Prod.snd := by
  induction h with
  | nil => intro l1 l2 _; rfl
  | @cons p q t1 t2 hpq _ ih =>
    intro l1 l2 hl
    have hstep := wiimote_update_low_congr p q l1 l2 hpq hl
    simp only [wiimote_pure, List.map_cons]
    rw [wiimote_flags_congr _ _ hstep, ih _ _ hstep]

theorem sysfs_masking (entries : List led_entry) (p : ledp_packet) (dev : Nat → Int) (i : Nat)
    (h : p.mask.testBit i = false) : sysfs_apply entries p dev i = dev i := by
  rw [sysfs_apply_eq]
  simp [h]

theorem airos_masking (p : ledp_packet) (dev : Nat → Bool) (i : Nat)
    (h : p.mask.testBit i = false) : airos_dev p dev i = dev i := by
  rw [airos_dev_eq]
  simp [h]

/-! ## Claims -/

/-- C1: the claim says `apply` never changes the state of a logical LED whose
mask bit is 0, for every backend.  The combined-register backend violates it:
its `handle_message` ORs in every bit of `values`, not only the masked ones.
Concretely, for the command with mask = 0 and `values` = 2 applied to the
all-off shadow register, LED 1 is unaddressed (mask bit 1 is 0) and off, yet
after `apply` its shadow entry is on and the device write carries its flag. -/
theorem C1_unmasked_led_changed :
    (⟨1, 0, 2⟩ : ledp_packet).mask.testBit 1 = false
      ∧ (0 : Nat).testBit 1 = false
      ∧ (wiimote_update ⟨1, 0, 2⟩ 0).testBit 1 = true
      ∧ wiimote_flags (wiimote_update ⟨1, 0, 2⟩ 0) = 2
      ∧ wiimote_flags 0 = 0 := by decide

/-- C2: the claim says that with more than 32 candidate LED entries the first
32 are served and the excess only produces a non-fatal warning.  In the code,
`process_led` returns status 1 for the 33rd entry and `main` treats any
nonzero status as fatal, so setup fails: with 33 perfectly valid candidates
the setup evaluates to an error and the server never starts serving. -/
theorem C2_excess_leds_fatal :
    sysfs_setup (List.replicate 33 ⟨false, some 255, some 3⟩) = Except.error ()
      ∧ (List.replicate 33 (⟨false, some 255, some 3⟩ : led_candidate)).length = 33 :=
  ⟨rfl, rfl⟩

/-- C3 counterexample: a 10-byte datagram with first byte 1 is NOT rejected:
`recv` truncates it to its first 9 bytes and returns 9, so the handler is
invoked with the packet decoded from those 9 bytes. -/
theorem C3_counterexample :
    ([1, 0, 0, 0, 2, 0, 0, 0, 3, 7] : List Nat).length = 10
      ∧ ledp_step [1, 0, 0, 0, 2, 0, 0, 0, 3, 7] = some ⟨1, 2, 3⟩ := by decide

/-- C3 (amended): every datagram SHORTER than 9 bytes, and every datagram
whose first byte is not 1, is silently discarded: decoding yields `none`, the
backend handler is never invoked and the backend state is unchanged.
(Datagrams longer than 9 bytes are instead truncated to their first 9 bytes
and processed.) -/
theorem C3_short_or_bad_version_rejected {σ : Type} (apply : σ → ledp_packet → σ)
    (st : σ) (d : List Nat) (h : d.length < 9 ∨ d.head? ≠ some 1) :
    ledp_step d = none ∧ dispatch apply st d = st := by
  have hnone : ledp_step d = none := by
    rcases h with h | h
    · unfold ledp_step
      have hmin : min d.length 9 ≠ 9 := by omega
      rw [if_pos hmin]
    · cases d with
      | nil => rfl
      | cons v t =>
        have hv : v ≠ 1 := by simpa using h
        unfold ledp_step
        by_cases hmin : min (v :: t).length 9 ≠ 9
        · rw [if_pos hmin]
        · rw [if_neg hmin]
          have hget : ((v :: t).take 9).getD 0 0 = v := rfl
          rw [hget, if_pos hv]
  refine ⟨hnone, ?_⟩
  unfold dispatch
  rw [hnone]

theorem C3_short_or_bad_version_rejected_witness :
    ledp_step [2, 0, 0, 0, 0, 0, 0, 0, 0] = none
      ∧ dispatch (fun (s : Nat) _ => s + 1) 5 [2, 0, 0, 0, 0, 0, 0, 0, 0] = 5 :=
  C3_short_or_bad_version_rejected (fun s _ => s + 1) 5 [2, 0, 0, 0, 0, 0, 0, 0, 0]
    (Or.inr (by decide))

/-- C4: every 9-byte buffer whose byte 0 equals 1 decodes successfully, with
`mask` the big-endian 32-bit integer formed by bytes 1-4 and `values` the
big-endian 32-bit integer formed by bytes 5-8; no other validation is applied
to the mask/value words. -/
theorem C4_decode_big_endian (b1 b2 b3 b4 b5 b6 b7 b8 : Nat)
    (h1 : b1 < 256) (h2 : b2 < 256) (h3 : b3 < 256) (h4 : b4 < 256)
    (h5 : b5 < 256) (h6 : b6 < 256) (h7 : b7 < 256) (h8 : b8 < 256) :
    ledp_step [1, b1, b2, b3, b4, b5, b6, b7, b8]
      = some ⟨1, ((b1 * 256 + b2) * 256 + b3) * 256 + b4,
                 ((b5 * 256 + b6) * 256 + b7) * 256 + b8⟩ := by
  have hstep : ledp_step [1, b1, b2, b3, b4, b5, b6, b7, b8]
      = some ⟨1, htonl32 (readLE32 b1 b2 b3 b4), htonl32 (readLE32 b5 b6 b7 b8)⟩ := rfl
  rw [hstep, htonl32_readLE32 b1 b2 b3 b4 h1 h2 h3 h4,
    htonl32_readLE32 b5 b6 b7 b8 h5 h6 h7 h8]

theorem C4_decode_big_endian_witness :
    ledp_step [1, 255, 255, 255, 255, 255, 255, 255, 255]
      = some ⟨1, 4294967295, 4294967295⟩ :=
  C4_decode_big_endian 255 255 255 255 255 255 255 255
    (by decide) (by decide) (by decide) (by decide)
    (by decide) (by decide) (by decide) (by decide)

/-- C5: the claim says the combined-register backend first updates the shadow
register per the capability contract (unaddressed entries unchanged).  The
code deviates: for the command with mask = 0 and `values` = 1 it turns shadow
entry 0 on (and writes flag 1), while the contract's update leaves the shadow
all-off (and the combined write would be 0). -/
theorem C5_shadow_update_breaks_contract :
    wiimote_update ⟨1, 0, 1⟩ 0 = 1
      ∧ spec_masked_update ⟨1, 0, 1⟩ 0 = 0
      ∧ wiimote_flags (wiimote_update ⟨1, 0, 1⟩ 0) = 1
      ∧ wiimote_flags (spec_masked_update ⟨1, 0, 1⟩ 0) = 0 := by decide

/-- C6: in the combined-register backend a failed device write is non-fatal:
every command in a run is processed (one per input, a failure only sets the
reported-error flag), and the shadow register and the flags value attempted
by each write are exactly those of the pure run of the same commands,
independent of which writes failed — so after a failed write the shadow still
holds the intended post-command state and the next write's flags reflect all
commands applied so far. -/
theorem C6_write_failure_nonfatal (leds : Nat) (cmds : List (ledp_packet × Bool)) :
    (wiimote_run leds cmds).length = cmds.length
      ∧ (wiimote_run leds cmds).map (fun r => (r.1, r.2.1))
          = wiimote_pure leds (cmds.map Prod.fst)
      ∧ (wiimote_run leds cmds).map (fun r => r.2.2) = cmds.map (fun c => !c.2) := by
  induction cmds generalizing leds with
  | nil => exact ⟨rfl, rfl, rfl⟩
  | cons c t ih =>
    obtain ⟨p, ok⟩ := c
    obtain ⟨ih1, ih2, ih3⟩ := ih (wiimote_update p leds)
    refine ⟨?_, ?_, ?_⟩ <;> simp [wiimote_run, wiimote_pure, ih1, ih2, ih3]

/-- C7: for every command, the line-protocol backend's buffer is exactly the
concatenation, over the addressed indices in increasing order, of one line
`"<pin> <value> <value>"` whose two value fields both equal the desired bit
(unaddressed indices contribute nothing), and the backend issues exactly one
write whose length argument equals the generated text's length. -/
theorem C7_line_backend_output (p : ledp_packet) :
    (airos_handle_message p).1
        = ((addressed p).map (fun i => gpio_line i (desired_bit p i) (desired_bit p i))).flatten
      ∧ airos_writes p = [((airos_handle_message p).1, (airos_handle_message p).1.length)] := by
  have h := airos_buffer_eq p
  constructor
  · rw [h]
  · unfold airos_writes
    rw [h]

/-- C8: last-write-wins — if commands A then B are applied and both address
logical LED i, LED i ends in the state given by bit i of B's value word in
all three backends (shadow register bit for the combined-register backend,
brightness value for the sysfs backend, pin state for the line-protocol
backend), regardless of A. -/
theorem C8_last_write_wins (i : Nat) (hi : i < 32) (A B : ledp_packet)
    (_hA : A.mask.testBit i = true) (hB : B.mask.testBit i = true)
    (leds : Nat) (entries : List led_entry) (hent : i < entries.length)
    (dev : Nat → Int) (gdev : Nat → Bool) :
    (wiimote_update B (wiimote_update A leds)).testBit i = B.values.testBit i
      ∧ sysfs_apply entries B (sysfs_apply entries A dev) i = sysfs_write_value entries B i
      ∧ airos_dev B (airos_dev A gdev) i = B.values.testBit i := by
  refine ⟨?_, ?_, ?_⟩
  · rw [wiimote_update_testBit B _ i hi, hB]
    cases (wiimote_update A leds).testBit i <;> cases B.values.testBit i <;> rfl
  · rw [sysfs_apply_eq]
    simp [hent, hB]
  · rw [airos_dev_eq]
    simp [hi, hB]

theorem C8_last_write_wins_witness :
    (wiimote_update ⟨1, 1, 1⟩ (wiimote_update ⟨1, 1, 0⟩ 0)).testBit 0 = true
      ∧ sysfs_apply [⟨3, 255⟩] ⟨1, 1, 1⟩ (sysfs_apply [⟨3, 255⟩] ⟨1, 1, 0⟩ (fun _ => 0)) 0 = 255
      ∧ airos_dev ⟨1, 1, 1⟩ (airos_dev ⟨1, 1, 0⟩ (fun _ => false)) 0 = true :=
  C8_last_write_wins 0 (by decide) ⟨1, 1, 0⟩ ⟨1, 1, 1⟩ (by decide) (by decide)
    0 [⟨3, 255⟩] (by decide) (fun _ => 0) (fun _ => false)

/-- C9: the device write of the combined-register backend depends only on
bits 0-3 of the shadow state, and each shadow bit depends only on the same
bit of the commands seen so far; hence two command sequences that agree on
mask and value bits 0-3 of every command produce identical sequences of
device flag values (starting from the all-off shadow state of setup). -/
theorem C9_low_bits_determine_writes {cs1 cs2 : List ledp_packet}
    (h : List.Forall₂ (fun p q => ∀ j, j < 4 →
      p.mask.testBit j = q.mask.testBit j ∧ p.values.testBit j = q.values.testBit j) cs1 cs2) :
    (wiimote_pure 0 cs1).map Prod.snd = (wiimote_pure 0 cs2).map Prod.snd :=
  wiimote_pure_snd_congr h 0 0 (fun _ _ => rfl)

theorem C9_low_bits_determine_writes_witness :
    (wiimote_pure 0 [⟨1, 16, 19⟩]).map Prod.snd = (wiimote_pure 0 [⟨1, 0, 3⟩]).map Prod.snd :=
  C9_low_bits_determine_writes (List.Forall₂.cons (by decide) List.Forall₂.nil)

/-- C10: for every command the line-protocol backend generates at most 214
bytes of command text (6 per line for the one-digit pins, 7 for the two-digit
pins), so the text plus the formatter's terminating NUL fits in the 224-byte
(7 * 32) buffer, and the length passed to the single write equals the
generated text's length. -/
theorem C10_buffer_bound (p : ledp_packet) :
    (airos_handle_message p).1.length ≤ 214
      ∧ (airos_handle_message p).1.length + 1 ≤ 7 * 32
      ∧ (airos_handle_message p).2 = (airos_handle_message p).1.length := by
  have h := airos_buffer_eq p
  have hle := airos_total_le p
  refine ⟨?_, ?_, ?_⟩
  · rw [h]
    exact hle
  · rw [h]
    show (((addressed p).map
        (fun i => gpio_line i (desired_bit p i) (desired_bit p i))).flatten).length + 1 ≤ 7 * 32
    omega
  · rw [h]

theorem sysfs_scan_found_le (cands : List led_candidate) :
    ∀ entries found r, sysfs_scan entries found cands = Except.ok r →
      found ≤ entries.length → r.2 ≤ r.1.length := by
  induction cands with
  | nil =>
    intro entries found r h hle
    rw [sysfs_scan] at h
    cases h
    exact hle
  | cons c rest ih =>
    intro entries found r h hle
    rw [sysfs_scan] at h
    by_cases hdot : c.name_is_dot
    · rw [if_pos hdot] at h
      exact ih entries found r h hle
    · rw [if_neg hdot] at h
      by_cases hcap : 32 ≤ entries.length
      · simp [process_led, hcap] at h
      · cases hmb : c.max_brightness_read with
        | none => simp [process_led, hcap, hmb] at h
        | some mb =>
          cases hfd : c.brightness_open with
          | none => simp [process_led, hcap, hmb, hfd] at h
          | some fd =>
            simp only [process_led, hcap, hmb, hfd, if_neg, if_false] at h
            refine ih _ _ r h ?_
            simp only [List.length_append, List.length_cons, List.length_nil]
            omega

theorem sysfs_warning_unreachable (cands : List led_candidate) (es : List led_entry) (w : Bool)
    (h : sysfs_setup cands = Except.ok (es, w)) : w = false := by
  unfold sysfs_setup at h
  cases hs : sysfs_scan [] 0 cands with
  | error e =>
    rw [hs] at h
    simp [Except.map] at h
  | ok r =>
    rw [hs] at h
    simp only [Except.map, Except.ok.injEq] at h
    have hle := sysfs_scan_found_le cands [] 0 r hs (by simp)
    injection h with h1 h2
    rw [← h2]
    simp only [decide_eq_false_iff_not, Nat.not_lt]
    omega
